import Mathlib

/-!
Verification of the event-system auditor in tools/audit_event_system.py
(repository opm-stats-api).

The development shallowly embeds the parts of the auditor the claims are
about: the payload corpus loader (parse_bru_file / parse_bruno_files), the
field-membership pass over payloads (validate_bruno_payloads), the GUID
disambiguation pass (validate_guid_fields), the count/coverage pass
(validate_event_counts) and the result/exit-code bookkeeping
(ValidationResult, main).

Modelling conventions:
- JSON values are modelled by `JValue`.  Field values are opaque to every
  check of the auditor: only the value stored under the key "type" is ever
  consulted, and it is only compared (as a whole) against string literals.
  Numbers, arrays and objects appearing as values therefore only need to
  be distinguishable from strings and from each other, which the
  constructors `num`, `jbool`, `null` and `compound` provide.
- A Python dict is modelled by an association list whose keys are unique;
  where a proof counts issues per key, key uniqueness is an explicit
  `Nodup` hypothesis (json.loads always yields unique keys).
- `json.loads` is an external library routine, not code of this
  repository; the loader is therefore parameterised by a decoder
  `String → Option (List (String × JValue))`.  `some` is a successful
  parse to a top-level object, `none` is json.JSONDecodeError.  (A body
  that parses to a JSON non-object raises in `payload.get` and is turned
  into an error-and-drop by the blanket except of the caller, an
  analogous path that the claims do not touch.)
- The auditor stores issues as formatted strings.  The embedding keeps
  them structured: each `Issue` constructor corresponds to exactly one
  `add_error` / `add_warning` call site of the source, carrying the data
  interpolated into the message there.  `Issue.severity` records which
  call sites go through `add_warning` (they alone increment `warnings`),
  all others go through `add_error` (incrementing `failed`).
- Python set accumulation is modelled by `List.dedup` of the accumulated
  values; the source sorts some issue lists before emission purely for
  display order, which no claim depends on, and that sorting is omitted.
-/

namespace OpmAudit

/-- JSON values as far as the auditor can distinguish them.  Compound
values (arrays, objects) and non-integral numbers are opaque to every
check and are represented by tagged constructors. -/
inductive JValue where
  | str (s : String)
  | num (n : Int)
  | jbool (b : Bool)
  | null
  | compound (tag : Nat)
deriving DecidableEq, Repr

/-- A Go struct field with its JSON tag, as parse_go_struct builds it
(lines 57-63 / 155-160 of the source).  The validator only ever uses the
keys of the go_fields dict, never these values. -/
structure GoStructField where
  name : String
  go_type : String
  json_name : String
  is_required : Bool
deriving DecidableEq, Repr

/-- A parsed Bruno .bru sample (source lines 65-71).  `payload` is the
deserialized body object; `event_type` is payload.get("type", ""). -/
structure BrunoEvent where
  file_path : String
  event_name : String
  event_type : JValue
  payload : List (String × JValue)
deriving DecidableEq, Repr

inductive Severity where
  | error
  | warning
deriving DecidableEq, Repr

/-- One constructor per add_error / add_warning call site reachable from
the passes under audit, carrying the data interpolated into the message
there. -/
inductive Issue where
  /-- line 238: "Missing required type field". -/
  | missingTypeField (file : String)
  /-- line 249: "Uses event_type instead of type". -/
  | eventTypeAlias (file : String)
  /-- line 254: Pass A, "Ambiguous guid field (should be player_guid, attacker_guid, or victim_guid)". -/
  | ambiguousGuidUnknownField (file : String)
  /-- line 259: "Unknown field (not in Go struct)". -/
  | unknownField (file : String) (key : String)
  /-- line 297: Pass C, "Uses ambiguous guid field". -/
  | usesAmbiguousGuid (file : String)
  /-- line 315: warning, combat event lacking attacker_guid and victim_guid; carries the "actual" list built on lines 306-313. -/
  | combatGuidWarning (file : String) (actual : List String)
  /-- line 322: warning, single-player event lacking player_guid. -/
  | singlePlayerGuidWarning (file : String)
  /-- line 359: the aggregate count-mismatch error of Pass D. -/
  | countMismatch (goCount brunoCount fileCount expected : Nat)
  /-- line 371: event type in Go but missing in Bruno. -/
  | missingInBruno (t : String)
  /-- line 377: event type in Bruno but not in the Go enum. -/
  | extraInBruno (v : JValue)
  /-- line 223: a body:json block that is not valid JSON. -/
  | invalidJson (file : String)
deriving DecidableEq, Repr

/-- Which call sites use add_warning (source lines 315, 322); all other
constructors go through add_error. -/
def Issue.severity : Issue → Severity
  | .combatGuidWarning _ _ => Severity.warning
  | .singlePlayerGuidWarning _ => Severity.warning
  | _ => Severity.error

/-- The file a per-file issue message names, none for the aggregate and
per-type issues of Pass B / Pass D. -/
def Issue.file : Issue → Option String
  | .missingTypeField f => some f
  | .eventTypeAlias f => some f
  | .ambiguousGuidUnknownField f => some f
  | .unknownField f _ => some f
  | .usesAmbiguousGuid f => some f
  | .combatGuidWarning f _ => some f
  | .singlePlayerGuidWarning f => some f
  | .invalidJson f => some f
  | _ => none

/-- The payload key a Pass A field-membership issue names.  The two
special-cased messages name their fixed keys in the message text. -/
def Issue.key : Issue → Option String
  | .eventTypeAlias _ => some "event_type"
  | .ambiguousGuidUnknownField _ => some "guid"
  | .unknownField _ k => some k
  | _ => none

/-- Wire keys of the parsed go_fields dict (the dict is keyed by
json_name, line 155). -/
def goKeys (go_fields : List (String × GoStructField)) : List String :=
  go_fields.map Prod.fst

/-- Keys of a payload object, in their dict order. -/
def payloadKeys (payload : List (String × JValue)) : List String :=
  payload.map Prod.fst

/-- Pass A, body of the inner loop (source lines 244-261): the issues the
membership check of one payload key emits. -/
def fieldIssue (go_fields : List (String × GoStructField)) (file k : String) :
    List Issue :=
  if k ∈ goKeys go_fields then []
  else if k = "event_type" then [Issue.eventTypeAlias file]
  else if k = "guid" then [Issue.ambiguousGuidUnknownField file]
  else [Issue.unknownField file k]

/-- Pass A, the inner loop over payload.items() (source line 244). -/
def issuesOfKeys (go_fields : List (String × GoStructField)) (file : String) :
    List String → List Issue
  | [] => []
  | k :: ks => fieldIssue go_fields file k ++ issuesOfKeys go_fields file ks

/-- Pass A, body of the outer loop for one sample (source lines 234-261):
a sample without the "type" key gets the missing-type error and is
skipped (continue), otherwise every key is membership-checked. -/
def sampleIssues (go_fields : List (String × GoStructField)) (e : BrunoEvent) :
    List Issue :=
  if "type" ∈ payloadKeys e.payload then
    issuesOfKeys go_fields e.file_path (payloadKeys e.payload)
  else [Issue.missingTypeField e.file_path]

/-- Pass A, validate_bruno_payloads (source lines 226-268), as the issue
sequence it appends. -/
def validate_bruno_payloads (go_fields : List (String × GoStructField)) :
    List BrunoEvent → List Issue
  | [] => []
  | e :: rest => sampleIssues go_fields e ++ validate_bruno_payloads go_fields rest

/-- Does a Pass A issue name the given file and the given payload key. -/
def namesFileKey (file k : String) (i : Issue) : Bool :=
  decide (Issue.file i = some file ∧ Issue.key i = some k)

theorem fieldIssue_filter_ne (go_fields : List (String × GoStructField))
    (file k k' : String) (h : k' ≠ k) :
    (fieldIssue go_fields file k').filter (namesFileKey file k) = [] := by
  unfold fieldIssue
  split
  · rfl
  · split
    · subst k'
      simp only [List.filter_eq_nil_iff]
      intro i hi
      simp only [List.mem_singleton] at hi
      subst i
      simp [namesFileKey, Issue.file, Issue.key, h]
    · split
      · subst k'
        simp only [List.filter_eq_nil_iff]
        intro i hi
        simp only [List.mem_singleton] at hi
        subst i
        simp [namesFileKey, Issue.file, Issue.key, h]
      · simp only [List.filter_eq_nil_iff]
        intro i hi
        simp only [List.mem_singleton] at hi
        subst i
        simp [namesFileKey, Issue.file, Issue.key, h]

theorem fieldIssue_filter_self (go_fields : List (String × GoStructField))
    (file k : String) :
    ((fieldIssue go_fields file k).filter (namesFileKey file k)).length
      = if k ∈ goKeys go_fields then 0 else 1 := by
  unfold fieldIssue
  split
  · simp
  · rename_i hout
    split
    · subst k
      simp [namesFileKey, Issue.file, Issue.key]
    · split
      · subst k
        simp [namesFileKey, Issue.file, Issue.key]
      · simp [hout, namesFileKey, Issue.file, Issue.key]

theorem issuesOfKeys_filter_not_mem (go_fields : List (String × GoStructField))
    (file k : String) :
    ∀ ks : List String, k ∉ ks →
      (issuesOfKeys go_fields file ks).filter (namesFileKey file k) = []
  | [], _ => rfl
  | k' :: ks, h => by
    have hne : k' ≠ k := fun hc => h (hc ▸ List.mem_cons_self k' ks)
    have hrest : k ∉ ks := fun hc => h (List.mem_cons_of_mem _ hc)
    simp only [issuesOfKeys, List.filter_append,
      fieldIssue_filter_ne go_fields file k k' hne,
      issuesOfKeys_filter_not_mem go_fields file k ks hrest, List.nil_append]

theorem issuesOfKeys_filter_mem (go_fields : List (String × GoStructField))
    (file k : String) :
    ∀ ks : List String, ks.Nodup → k ∈ ks →
      ((issuesOfKeys go_fields file ks).filter (namesFileKey file k)).length
        = if k ∈ goKeys go_fields then 0 else 1
  | [], _, hmem => absurd hmem (List.not_mem_nil k)
  | k' :: ks, hnd, hmem => by
    rcases List.mem_cons.mp hmem with heq | hmem'
    · subst k'
      have hnot : k ∉ ks := (List.nodup_cons.mp hnd).1
      simp only [issuesOfKeys, List.filter_append, List.length_append,
        issuesOfKeys_filter_not_mem go_fields file k ks hnot,
        List.length_nil, Nat.add_zero]
      exact fieldIssue_filter_self go_fields file k
    · have hne : k' ≠ k := by
        intro hc
        subst hc
        exact (List.nodup_cons.mp hnd).1 hmem'
      simp only [issuesOfKeys, List.filter_append, List.length_append,
        fieldIssue_filter_ne go_fields file k k' hne, List.length_nil,
        Nat.zero_add]
      exact issuesOfKeys_filter_mem go_fields file k ks
        (List.nodup_cons.mp hnd).2 hmem'

/-- A sample whose payload is exactly the object with the one key "type". -/
def cexSampleC1 : BrunoEvent :=
  ⟨"a.bru", "a", JValue.str "x", [("type", JValue.str "x")]⟩

/-- A sample with keys "type" and "zzz", used as the C1 witness input. -/
def wSampleC1 : BrunoEvent :=
  ⟨"w.bru", "w", JValue.str "x", [("type", JValue.str "x"), ("zzz", JValue.null)]⟩

/-- C1: the claim asserts the reserved "type" key is never flagged as
unknown.  The code has no such exemption: on a sample whose payload is
exactly the object with key "type", audited against a schema that does
not itself contain a "type" wire key, Pass A flags the key "type" as an
unknown field. -/
theorem claim_C1_cex :
    sampleIssues [] cexSampleC1 = [Issue.unknownField "a.bru" "type"] := by
  decide

/-- C1 (amended): for every loaded sample whose payload has the "type"
key, and every key of the payload, Pass A records exactly one Error
naming the file and the key if and only if the key is absent from the
schema field mapping.  The reserved "type" key gets no special
exemption: it too is flagged exactly when absent from the schema. -/
theorem claim_C1 (go_fields : List (String × GoStructField)) (e : BrunoEvent)
    (hnd : (payloadKeys e.payload).Nodup)
    (ht : "type" ∈ payloadKeys e.payload)
    (k : String) (hk : k ∈ payloadKeys e.payload) :
    ((sampleIssues go_fields e).filter (namesFileKey e.file_path k)).length
      = if k ∈ goKeys go_fields then 0 else 1 := by
  unfold sampleIssues
  rw [if_pos ht]
  exact issuesOfKeys_filter_mem go_fields e.file_path k (payloadKeys e.payload) hnd hk

theorem claim_C1_witness :
    ((sampleIssues [] wSampleC1).filter (namesFileKey "w.bru" "zzz")).length = 1 := by
  have h := claim_C1 [] wSampleC1 (by decide) (by decide) "zzz" (by decide)
  simpa using h

/-- The paired-identity partition (source lines 274-277). -/
def combat_events : List String :=
  ["player_kill", "bot_killed", "team_kill", "damage",
   "player_damage", "bot_damage", "team_damage"]

/-- The single-identity partition (source lines 279-284). -/
def single_player_events : List String :=
  ["jump", "crouch", "prone", "stand", "sprint", "walk",
   "spawn", "respawn", "say", "say_team", "connect", "disconnect",
   "weapon_pickup", "weapon_switch", "weapon_drop", "reload",
   "item_pickup", "item_use", "item_drop"]

/-- Python membership of the event_type value in a set of string
literals: a non-string value is in no such set. -/
def etIn (v : JValue) (s : List String) : Bool :=
  match v with
  | .str t => decide (t ∈ s)
  | _ => false

/-- The "actual" list the combat warning message reports (source lines
306-314). -/
def combatActual (keys : List String) : List String :=
  (if "attacker_guid" ∈ keys then ["attacker_guid"] else []) ++
  (if "victim_guid" ∈ keys then ["victim_guid"] else []) ++
  (if "player_guid" ∈ keys then ["player_guid"] else [])

/-- Pass C, body of the loop of validate_guid_fields for one sample
(source lines 288-324): an unconditional error for a bare "guid" key,
which skips the partition checks (continue); otherwise a warning when a
paired-identity (combat) event lacks attacker_guid and victim_guid, or a
single-identity event lacks player_guid. -/
def guidIssuesFor (e : BrunoEvent) : List Issue :=
  if "guid" ∈ payloadKeys e.payload then [Issue.usesAmbiguousGuid e.file_path]
  else if etIn e.event_type combat_events = true then
    if "attacker_guid" ∈ payloadKeys e.payload ∧ "victim_guid" ∈ payloadKeys e.payload
    then []
    else [Issue.combatGuidWarning e.file_path (combatActual (payloadKeys e.payload))]
  else if etIn e.event_type single_player_events = true then
    if "player_guid" ∈ payloadKeys e.payload then []
    else [Issue.singlePlayerGuidWarning e.file_path]
  else []

/-- Pass C, validate_guid_fields (source lines 270-324), as the issue
sequence it appends. -/
def validate_guid_fields : List BrunoEvent → List Issue
  | [] => []
  | e :: rest => guidIssuesFor e ++ validate_guid_fields rest

/-- A sample whose event type sits in neither partition but which
carries the bare "guid" key. -/
def cexSampleC8 : BrunoEvent :=
  ⟨"c.bru", "c", JValue.str "custom_event",
   [("type", JValue.str "custom_event"), ("guid", JValue.str "g")]⟩

/-- C8: the claim asserts a sample whose event type is in neither
partition gets no Pass C issue of any severity.  The bare-guid error of
Pass C is unconditional: this sample is in neither partition and still
receives a Pass C Error. -/
theorem claim_C8_cex :
    etIn cexSampleC8.event_type combat_events = false
    ∧ etIn cexSampleC8.event_type single_player_events = false
    ∧ guidIssuesFor cexSampleC8 = [Issue.usesAmbiguousGuid "c.bru"] := by
  decide

/-- C8 (amended): a loaded sample whose event type is in neither the
paired-identity partition nor the single-identity partition, and whose
payload does not carry the bare "guid" key, gets no Pass C issue of any
severity; only the unconditional bare-guid error can reach such a
sample. -/
theorem claim_C8 (e : BrunoEvent)
    (h1 : etIn e.event_type combat_events = false)
    (h2 : etIn e.event_type single_player_events = false)
    (h3 : "guid" ∉ payloadKeys e.payload) :
    guidIssuesFor e = [] := by
  simp [guidIssuesFor, h1, h2, h3]

/-- A sample in neither partition and without the bare "guid" key. -/
def wSampleC8 : BrunoEvent :=
  ⟨"n.bru", "n", JValue.str "custom_event",
   [("type", JValue.str "custom_event"), ("player_guid", JValue.str "g")]⟩

theorem claim_C8_witness : guidIssuesFor wSampleC8 = [] :=
  claim_C8 wSampleC8 (by decide) (by decide) (by decide)

/-- C10: within Pass C the bare-guid Error and the partition Warnings
are mutually exclusive per sample — no sample contributes both an Error
and a Warning to this pass, and a guid-carrying sample contributes
exactly the one Error. -/
theorem claim_C10 (e : BrunoEvent) :
    ((guidIssuesFor e).filter (fun i => decide (Issue.severity i = Severity.error))).length
      * ((guidIssuesFor e).filter (fun i => decide (Issue.severity i = Severity.warning))).length = 0
    ∧ (if "guid" ∈ payloadKeys e.payload
       then guidIssuesFor e = [Issue.usesAmbiguousGuid e.file_path]
       else True) := by
  unfold guidIssuesFor
  split
  · exact ⟨by simp [Issue.severity], by simp_all⟩
  · refine ⟨?_, by simp_all⟩
    split
    · split
      · simp
      · simp [Issue.severity]
    · split
      · split
        · simp
        · simp [Issue.severity]
      · simp

theorem guidIssuesFor_filter_ne (e : BrunoEvent) (fp : String)
    (h : e.file_path ≠ fp) :
    (guidIssuesFor e).filter (fun i => decide (i = Issue.usesAmbiguousGuid fp)) = [] := by
  unfold guidIssuesFor
  split
  · simp [h]
  · split
    · split
      · rfl
      · simp
    · split
      · split
        · rfl
        · simp
      · rfl

theorem validate_guid_filter_not_mem (fp : String) :
    ∀ events : List BrunoEvent, fp ∉ events.map BrunoEvent.file_path →
      (validate_guid_fields events).filter
        (fun i => decide (i = Issue.usesAmbiguousGuid fp)) = []
  | [], _ => rfl
  | e :: rest, h => by
    have hne : e.file_path ≠ fp := fun hc => h (hc ▸ List.mem_map_of_mem BrunoEvent.file_path (List.mem_cons_self e rest))
    have hrest : fp ∉ rest.map BrunoEvent.file_path := by
      intro hc
      exact h (by simpa using Or.inr (by simpa using hc))
    simp only [validate_guid_fields, List.filter_append,
      guidIssuesFor_filter_ne e fp hne,
      validate_guid_filter_not_mem fp rest hrest, List.nil_append]

theorem guidIssuesFor_of_guid (e : BrunoEvent)
    (hg : "guid" ∈ payloadKeys e.payload) :
    guidIssuesFor e = [Issue.usesAmbiguousGuid e.file_path] := by
  simp [guidIssuesFor, hg]

/-- A schema with the wire key "type" but without "guid": on such a
schema a guid-carrying sample draws one Error from Pass A (line 252) and
a second from Pass C (line 295) in the same run. -/
def cexSchemaC2 : List (String × GoStructField) :=
  [("type", ⟨"Type", "string", "type", true⟩)]

/-- The guid-carrying sample of the C2 counterexample run. -/
def cexSampleC2 : BrunoEvent :=
  ⟨"a.bru", "a", JValue.str "jump",
   [("type", JValue.str "jump"), ("guid", JValue.str "g")]⟩

/-- C2 (amended): the identity-disambiguation pass (Pass C) records
exactly one Error per guid-carrying loaded sample over the whole run,
regardless of the sample's event type and regardless of the schema; the
second ambiguous-guid Error a run can record for the same sample comes
from Pass A, not from this pass. -/
theorem claim_C2 (events : List BrunoEvent) (e : BrunoEvent)
    (he : e ∈ events)
    (hnd : (events.map BrunoEvent.file_path).Nodup)
    (hg : "guid" ∈ payloadKeys e.payload) :
    ((validate_guid_fields events).filter
      (fun i => decide (i = Issue.usesAmbiguousGuid e.file_path))).length = 1 := by
  induction events with
  | nil => exact absurd he (List.not_mem_nil e)
  | cons e' rest ih =>
    rcases List.mem_cons.mp he with heq | hmem
    · subst e'
      have hnot : e.file_path ∉ rest.map BrunoEvent.file_path :=
        (List.nodup_cons.mp (by simpa using hnd)).1
      simp only [validate_guid_fields, List.filter_append, List.length_append,
        validate_guid_filter_not_mem e.file_path rest hnot, List.length_nil,
        Nat.add_zero, guidIssuesFor_of_guid e hg]
      simp
    · have hne : e'.file_path ≠ e.file_path := by
        intro hc
        have hmm : e.file_path ∈ rest.map BrunoEvent.file_path :=
          List.mem_map_of_mem BrunoEvent.file_path hmem
        have hh := (List.nodup_cons.mp
          (show (e'.file_path :: rest.map BrunoEvent.file_path).Nodup by
            simpa using hnd)).1
        rw [hc] at hh
        exact hh hmm
      simp only [validate_guid_fields, List.filter_append, List.length_append,
        guidIssuesFor_filter_ne e' e.file_path hne, List.length_nil,
        Nat.zero_add]
      exact ih hmem (List.nodup_cons.mp (by simpa using hnd)).2

theorem claim_C2_witness :
    ((validate_guid_fields [cexSampleC2]).filter
      (fun i => decide (i = Issue.usesAmbiguousGuid "a.bru"))).length = 1 := by
  have h := claim_C2 [cexSampleC2] cexSampleC2 (by decide) (by decide) (by decide)
  simpa using h

/-- EventType enum extraction (source lines 162-177): the regex captures
in file order, accumulated into a set; modelled as the distinct values
in first-occurrence order. -/
def parse_event_types_enum (raw : List String) : List String :=
  raw.dedup

/-- The set event_types_bruno accumulated one add per loaded event
(source line 192): the distinct event_type values of the corpus. -/
def event_types_of (corpus : List BrunoEvent) : List JValue :=
  (corpus.map BrunoEvent.event_type).dedup

/-- Passes B and D, validate_event_counts (source lines 334-377): the
aggregate count reconciliation against the hardcoded expected_count 105,
then one missing-coverage error per canonical type not observed, then
one unknown-type error per observed value not canonical.  The source
sorts the two per-type lists before emission purely for display; the
sorting is omitted here (no claim concerns issue order). -/
def validate_event_counts (event_types_go : List String)
    (event_types_bruno : List JValue) (bruno_events : List BrunoEvent) :
    List Issue :=
  (if event_types_go.length = 105 ∧ event_types_bruno.length = 105
      ∧ bruno_events.length = 105
   then []
   else [Issue.countMismatch event_types_go.length event_types_bruno.length
          bruno_events.length 105]) ++
  (event_types_go.filter
    (fun t => decide (JValue.str t ∉ event_types_bruno))).map Issue.missingInBruno ++
  (event_types_bruno.filter
    (fun v => decide (¬ ∃ t ∈ event_types_go, v = JValue.str t))).map Issue.extraInBruno

/-- Is an issue the aggregate Pass D count-mismatch error. -/
def isCountMismatch : Issue → Bool
  | .countMismatch _ _ _ _ => true
  | _ => false

/-- Is an issue one of the per-type coverage errors of Pass B. -/
def isCoverageIssue : Issue → Bool
  | .missingInBruno _ => true
  | .extraInBruno _ => true
  | _ => false

theorem filter_countMismatch_missing (l : List String) :
    (l.map Issue.missingInBruno).filter isCountMismatch = [] := by
  induction l <;> simp_all [isCountMismatch]

theorem filter_countMismatch_extra (l : List JValue) :
    (l.map Issue.extraInBruno).filter isCountMismatch = [] := by
  induction l <;> simp_all [isCountMismatch]

/-- C3 (Pass D, count reconciliation): the aggregate error appears
exactly when the canonical count, the distinct observed count and the
loaded-sample count are not all equal to the configured expected count
105, and then it is a single error carrying all three numbers. -/
theorem claim_C3 (goRaw : List String) (corpus : List BrunoEvent) :
    (validate_event_counts (parse_event_types_enum goRaw)
      (event_types_of corpus) corpus).filter isCountMismatch
      = (if (parse_event_types_enum goRaw).length = 105
            ∧ (event_types_of corpus).length = 105 ∧ corpus.length = 105
         then []
         else [Issue.countMismatch (parse_event_types_enum goRaw).length
                (event_types_of corpus).length corpus.length 105]) := by
  unfold validate_event_counts
  rw [List.filter_append, List.filter_append,
    filter_countMismatch_missing, filter_countMismatch_extra]
  split
  · rfl
  · rfl

theorem filter_eq_pred_nil {α : Type} [DecidableEq α] (l : List α) (t : α)
    (h : t ∉ l) : l.filter (fun a => decide (a = t)) = [] := by
  rw [List.filter_eq_nil_iff]
  intro a ha
  simp only [decide_eq_true_eq]
  intro hc
  subst hc
  exact h ha

theorem length_filter_self_of_nodup {α : Type} [DecidableEq α] :
    ∀ (l : List α), l.Nodup → ∀ t : α,
      (l.filter (fun a => decide (a = t))).length = if t ∈ l then 1 else 0
  | [], _, t => by simp
  | a :: l, hnd, t => by
    by_cases h : a = t
    · subst h
      have hnot : a ∉ l := (List.nodup_cons.mp hnd).1
      simp [List.filter_cons, filter_eq_pred_nil l a hnot]
    · have hiff : (t ∈ a :: l) ↔ (t ∈ l) := by
        simp only [List.mem_cons]
        constructor
        · rintro (hc | hc)
          · exact absurd hc.symm h
          · exact hc
        · exact Or.inr
      simp only [List.filter_cons, decide_eq_true_eq]
      rw [if_neg h,
        length_filter_self_of_nodup l (List.nodup_cons.mp hnd).2 t]
      exact (if_congr hiff rfl rfl).symm

theorem length_filter_map_missing (l : List String) (t : String) :
    ((l.map Issue.missingInBruno).filter
      (fun i => decide (i = Issue.missingInBruno t))).length
      = (l.filter (fun a => decide (a = t))).length := by
  induction l with
  | nil => rfl
  | cons a l ih =>
    by_cases h : a = t
    · subst h
      simp [List.filter_cons, ih]
    · simp [List.filter_cons, h, ih]

theorem length_filter_map_extra (l : List JValue) (v : JValue) :
    ((l.map Issue.extraInBruno).filter
      (fun i => decide (i = Issue.extraInBruno v))).length
      = (l.filter (fun a => decide (a = v))).length := by
  induction l with
  | nil => rfl
  | cons a l ih =>
    by_cases h : a = v
    · subst h
      simp [List.filter_cons, ih]
    · simp [List.filter_cons, h, ih]

theorem filter_missing_over_extra (l : List JValue) (t : String) :
    (l.map Issue.extraInBruno).filter
      (fun i => decide (i = Issue.missingInBruno t)) = [] := by
  induction l <;> simp_all

theorem filter_extra_over_missing (l : List String) (v : JValue) :
    (l.map Issue.missingInBruno).filter
      (fun i => decide (i = Issue.extraInBruno v)) = [] := by
  induction l <;> simp_all

/-- C4 (Pass B, type coverage): each canonical type observed in no
loaded sample yields exactly one missing-coverage Error; each observed
eventType value outside the canonical set yields exactly one
unknown-type Error; and when the observed values are exactly the
canonical types, the pass yields no coverage issue at all. -/
theorem claim_C4 (goRaw : List String) (corpus : List BrunoEvent) :
    (∀ t : String,
      ((validate_event_counts (parse_event_types_enum goRaw)
          (event_types_of corpus) corpus).filter
        (fun i => decide (i = Issue.missingInBruno t))).length
        = if t ∈ parse_event_types_enum goRaw
            ∧ (∀ e ∈ corpus, e.event_type ≠ JValue.str t) then 1 else 0)
    ∧ (∀ v : JValue,
      ((validate_event_counts (parse_event_types_enum goRaw)
          (event_types_of corpus) corpus).filter
        (fun i => decide (i = Issue.extraInBruno v))).length
        = if v ∈ corpus.map BrunoEvent.event_type
            ∧ (∀ t ∈ parse_event_types_enum goRaw, v ≠ JValue.str t) then 1 else 0)
    ∧ ((∀ t ∈ parse_event_types_enum goRaw,
          JValue.str t ∈ corpus.map BrunoEvent.event_type) →
       (∀ v ∈ corpus.map BrunoEvent.event_type,
          ∃ t ∈ parse_event_types_enum goRaw, v = JValue.str t) →
       (validate_event_counts (parse_event_types_enum goRaw)
          (event_types_of corpus) corpus).filter isCoverageIssue = []) := by
  refine ⟨?_, ?_, ?_⟩
  · intro t
    unfold validate_event_counts
    rw [List.filter_append, List.filter_append, List.length_append,
      List.length_append, filter_missing_over_extra]
    have hhead : ((if (parse_event_types_enum goRaw).length = 105
          ∧ (event_types_of corpus).length = 105 ∧ corpus.length = 105
        then ([] : List Issue)
        else [Issue.countMismatch (parse_event_types_enum goRaw).length
          (event_types_of corpus).length corpus.length 105]).filter
        (fun i => decide (i = Issue.missingInBruno t))) = [] := by
      split <;> simp
    rw [hhead, length_filter_map_missing]
    simp only [List.length_nil, Nat.zero_add, Nat.add_zero]
    have hnodup1 : ((parse_event_types_enum goRaw).filter
        (fun t' => decide (JValue.str t' ∉ event_types_of corpus))).Nodup :=
      (List.nodup_dedup goRaw).filter _
    rw [length_filter_self_of_nodup _ hnodup1 t]
    have hcond : (t ∈ (parse_event_types_enum goRaw).filter
        (fun t' => decide (JValue.str t' ∉ event_types_of corpus)))
        ↔ (t ∈ parse_event_types_enum goRaw
            ∧ ∀ e ∈ corpus, e.event_type ≠ JValue.str t) := by
      simp [List.mem_filter, event_types_of, List.mem_dedup, List.mem_map,
        parse_event_types_enum]
    exact if_congr hcond rfl rfl
  · intro v
    unfold validate_event_counts
    rw [List.filter_append, List.filter_append, List.length_append,
      List.length_append, filter_extra_over_missing]
    have hhead : ((if (parse_event_types_enum goRaw).length = 105
          ∧ (event_types_of corpus).length = 105 ∧ corpus.length = 105
        then ([] : List Issue)
        else [Issue.countMismatch (parse_event_types_enum goRaw).length
          (event_types_of corpus).length corpus.length 105]).filter
        (fun i => decide (i = Issue.extraInBruno v))) = [] := by
      split <;> simp
    rw [hhead, length_filter_map_extra]
    simp only [List.length_nil, Nat.zero_add, Nat.add_zero]
    have hnodup2 : ((event_types_of corpus).filter
        (fun v' => decide (¬ ∃ t ∈ parse_event_types_enum goRaw,
          v' = JValue.str t))).Nodup :=
      (List.nodup_dedup (corpus.map BrunoEvent.event_type)).filter _
    rw [length_filter_self_of_nodup _ hnodup2 v]
    have hcond : (v ∈ (event_types_of corpus).filter
        (fun v' => decide (¬ ∃ t ∈ parse_event_types_enum goRaw, v' = JValue.str t)))
        ↔ (v ∈ corpus.map BrunoEvent.event_type
            ∧ ∀ t ∈ parse_event_types_enum goRaw, v ≠ JValue.str t) := by
      simp [List.mem_filter, event_types_of, List.mem_dedup]
    exact if_congr hcond rfl rfl
  · intro h1 h2
    unfold validate_event_counts
    have hmiss : (parse_event_types_enum goRaw).filter
        (fun t => decide (JValue.str t ∉ event_types_of corpus)) = [] := by
      rw [List.filter_eq_nil_iff]
      intro t ht
      simp only [decide_eq_true_eq, Decidable.not_not]
      exact (List.mem_dedup).mpr (h1 t ht)
    have hextra : (event_types_of corpus).filter
        (fun v => decide (¬ ∃ t ∈ parse_event_types_enum goRaw, v = JValue.str t)) = [] := by
      rw [List.filter_eq_nil_iff]
      intro v hv
      simp only [decide_eq_true_eq, Decidable.not_not]
      exact h2 v ((List.mem_dedup).mp hv)
    rw [hmiss, hextra]
    simp only [List.map_nil, List.append_nil]
    split <;> simp [isCoverageIssue]

/-- The pieces the .bru regexes extract from one file (source lines
196-210): the file name, the file stem, the optional capture of the
meta-block name, and the optional capture of the body:json block. -/
structure BruFileInput where
  name : String
  stem : String
  metaName : Option String
  bodyJson : Option String
deriving DecidableEq, Repr

/-- parse_bru_file (source lines 196-224), parameterised by the JSON
decoder standing for json.loads.  No body:json match returns None with
no issue (silent skip, line 207); a decoding failure records the
invalid-JSON error and returns None (lines 222-224); success builds the
BrunoEvent with event_type = payload.get("type", "") (lines 213-221). -/
def parse_bru_file (decode : String → Option (List (String × JValue)))
    (f : BruFileInput) : Option BrunoEvent × List Issue :=
  match f.bodyJson with
  | none => (none, [])
  | some txt =>
    match decode txt with
    | none => (none, [Issue.invalidJson f.name])
    | some payload =>
      (some ⟨f.name, f.metaName.getD f.stem,
        ((payload.find? (fun q => q.1 == "type")).map Prod.snd).getD (JValue.str ""),
        payload⟩, [])

/-- parse_bruno_files (source lines 179-194): the loaded corpus in file
order and the issues the loader records.  Only files whose parse yields
an event are appended (line 190). -/
def parse_bruno_files (decode : String → Option (List (String × JValue))) :
    List BruFileInput → List BrunoEvent × List Issue
  | [] => ([], [])
  | f :: fs =>
    let r := parse_bru_file decode f
    let rest := parse_bruno_files decode fs
    ((match r.1 with
      | some e => e :: rest.1
      | none => rest.1), r.2 ++ rest.2)

theorem parse_bru_file_fst_file (decode : String → Option (List (String × JValue)))
    (f : BruFileInput) (e : BrunoEvent)
    (h : (parse_bru_file decode f).1 = some e) : e.file_path = f.name := by
  cases hb : f.bodyJson with
  | none => simp [parse_bru_file, hb] at h
  | some txt =>
    cases hd : decode txt with
    | none => simp [parse_bru_file, hb, hd] at h
    | some payload =>
      simp only [parse_bru_file, hb, hd, Option.some.injEq] at h
      rw [← h]

theorem parse_bru_file_snd_file (decode : String → Option (List (String × JValue)))
    (f : BruFileInput) :
    ∀ i ∈ (parse_bru_file decode f).2, Issue.file i = some f.name := by
  cases hb : f.bodyJson with
  | none => simp [parse_bru_file, hb]
  | some txt =>
    cases hd : decode txt with
    | none => simp [parse_bru_file, hb, hd, Issue.file]
    | some payload => simp [parse_bru_file, hb, hd]

/-- Events and issues produced by the loader carry the name of the file
they came from: a name whose every carrier parses to nothing appears
nowhere in the output. -/
theorem parse_files_name_attribution
    (decode : String → Option (List (String × JValue))) (nm : String) :
    ∀ fs : List BruFileInput,
      (∀ g ∈ fs, g.name = nm → parse_bru_file decode g = (none, [])) →
      (∀ e ∈ (parse_bruno_files decode fs).1, e.file_path ≠ nm)
      ∧ (∀ i ∈ (parse_bruno_files decode fs).2, Issue.file i ≠ some nm)
  | [], _ => ⟨fun e he => absurd he (List.not_mem_nil e),
      fun i hi => absurd hi (List.not_mem_nil i)⟩
  | g :: fs, h => by
    have hrest := parse_files_name_attribution decode nm fs
      (fun g' hg' => h g' (List.mem_cons_of_mem g hg'))
    by_cases hg : g.name = nm
    · have hz := h g (List.mem_cons_self g fs) hg
      constructor
      · intro e he
        rw [show (parse_bruno_files decode (g :: fs)).1
            = (match (parse_bru_file decode g).1 with
               | some e => e :: (parse_bruno_files decode fs).1
               | none => (parse_bruno_files decode fs).1) from rfl, hz] at he
        exact hrest.1 e he
      · intro i hi
        rw [show (parse_bruno_files decode (g :: fs)).2
            = (parse_bru_file decode g).2 ++ (parse_bruno_files decode fs).2 from rfl,
          hz] at hi
        exact hrest.2 i (by simpa using hi)
    · constructor
      · intro e he
        rw [show (parse_bruno_files decode (g :: fs)).1
            = (match (parse_bru_file decode g).1 with
               | some e => e :: (parse_bruno_files decode fs).1
               | none => (parse_bruno_files decode fs).1) from rfl] at he
        cases hr : (parse_bru_file decode g).1 with
        | none =>
          rw [hr] at he
          exact hrest.1 e he
        | some e' =>
          rw [hr] at he
          rcases List.mem_cons.mp he with heq | hmem
          · subst heq
            rw [parse_bru_file_fst_file decode g e hr]
            exact hg
          · exact hrest.1 e hmem
      · intro i hi
        rw [show (parse_bruno_files decode (g :: fs)).2
            = (parse_bru_file decode g).2 ++ (parse_bruno_files decode fs).2 from rfl] at hi
        rcases List.mem_append.mp hi with hmem | hmem
        · rw [parse_bru_file_snd_file decode g i hmem]
          intro hc
          exact hg (by simpa using hc)
        · exact hrest.2 i hmem

theorem parse_files_no_name (decode : String → Option (List (String × JValue)))
    (nm : String) (fs : List BruFileInput)
    (h : nm ∉ fs.map BruFileInput.name) :
    (∀ e ∈ (parse_bruno_files decode fs).1, e.file_path ≠ nm)
    ∧ (∀ i ∈ (parse_bruno_files decode fs).2, Issue.file i ≠ some nm) :=
  parse_files_name_attribution decode nm fs
    (fun _g hg heq => absurd (heq ▸ List.mem_map_of_mem BruFileInput.name hg) h)

theorem parse_files_length_le (decode : String → Option (List (String × JValue))) :
    ∀ fs : List BruFileInput, (parse_bruno_files decode fs).1.length ≤ fs.length
  | [] => Nat.le_refl 0
  | g :: fs => by
    have ih := parse_files_length_le decode fs
    rw [show (parse_bruno_files decode (g :: fs)).1
        = (match (parse_bru_file decode g).1 with
           | some e => e :: (parse_bruno_files decode fs).1
           | none => (parse_bruno_files decode fs).1) from rfl]
    cases (parse_bru_file decode g).1 with
    | none =>
      simp only [List.length_cons]
      exact Nat.le_succ_of_le ih
    | some e =>
      simp only [List.length_cons]
      exact Nat.succ_le_succ ih

/-- C6: a sample file whose body block does not deserialize yields
exactly one Error naming the file, contributes no event to the corpus
(hence nothing to any pass or to the observed-type set), and is excluded
from the loaded-sample count of Pass D. -/
theorem claim_C6 (decode : String → Option (List (String × JValue)))
    (f : BruFileInput) (t : String)
    (hb : f.bodyJson = some t) (hd : decode t = none) :
    ∀ files : List BruFileInput, f ∈ files →
      (files.map BruFileInput.name).Nodup →
      ((parse_bruno_files decode files).2.filter
        (fun i => decide (i = Issue.invalidJson f.name))).length = 1
      ∧ (∀ e ∈ (parse_bruno_files decode files).1, e.file_path ≠ f.name)
      ∧ (parse_bruno_files decode files).1.length + 1 ≤ files.length
  | [], hf, _ => absurd hf (List.not_mem_nil f)
  | g :: fs, hf, hnd => by
    have hm := List.nodup_cons.mp (show (g.name :: fs.map BruFileInput.name).Nodup by
      simpa using hnd)
    rcases List.mem_cons.mp hf with heq | hmem
    · subst heq
      have hz : parse_bru_file decode f = (none, [Issue.invalidJson f.name]) := by
        simp [parse_bru_file, hb, hd]
      have hrest := parse_files_no_name decode f.name fs hm.1
      refine ⟨?_, ?_, ?_⟩
      · rw [show (parse_bruno_files decode (f :: fs)).2
            = (parse_bru_file decode f).2 ++ (parse_bruno_files decode fs).2 from rfl,
          hz, List.filter_append, List.length_append]
        have h2 : ((parse_bruno_files decode fs).2.filter
            (fun i => decide (i = Issue.invalidJson f.name))) = [] := by
          rw [List.filter_eq_nil_iff]
          intro i hi
          simp only [decide_eq_true_eq]
          intro hceq
          apply hrest.2 i hi
          rw [hceq]
          rfl
        rw [h2]
        simp
      · intro e he
        rw [show (parse_bruno_files decode (f :: fs)).1
            = (match (parse_bru_file decode f).1 with
               | some e => e :: (parse_bruno_files decode fs).1
               | none => (parse_bruno_files decode fs).1) from rfl, hz] at he
        exact hrest.1 e he
      · rw [show (parse_bruno_files decode (f :: fs)).1
            = (match (parse_bru_file decode f).1 with
               | some e => e :: (parse_bruno_files decode fs).1
               | none => (parse_bruno_files decode fs).1) from rfl, hz]
        simp only [List.length_cons]
        exact Nat.succ_le_succ (parse_files_length_le decode fs)
    · have hgne : g.name ≠ f.name := by
        intro hc
        exact hm.1 (hc ▸ List.mem_map_of_mem BruFileInput.name hmem)
      have ihh := claim_C6 decode f t hb hd fs hmem hm.2
      refine ⟨?_, ?_, ?_⟩
      · rw [show (parse_bruno_files decode (g :: fs)).2
            = (parse_bru_file decode g).2 ++ (parse_bruno_files decode fs).2 from rfl,
          List.filter_append, List.length_append]
        have h1 : ((parse_bru_file decode g).2.filter
            (fun i => decide (i = Issue.invalidJson f.name))) = [] := by
          rw [List.filter_eq_nil_iff]
          intro i hi
          simp only [decide_eq_true_eq]
          intro hceq
          have := parse_bru_file_snd_file decode g i hi
          rw [hceq] at this
          exact hgne (by simpa [Issue.file] using this.symm)
        rw [h1]
        simpa using ihh.1
      · intro e he
        rw [show (parse_bruno_files decode (g :: fs)).1
            = (match (parse_bru_file decode g).1 with
               | some e => e :: (parse_bruno_files decode fs).1
               | none => (parse_bruno_files decode fs).1) from rfl] at he
        cases hr : (parse_bru_file decode g).1 with
        | none =>
          rw [hr] at he
          exact ihh.2.1 e he
        | some e' =>
          rw [hr] at he
          rcases List.mem_cons.mp he with heq2 | hmem2
          · subst heq2
            rw [parse_bru_file_fst_file decode g e hr]
            exact hgne
          · exact ihh.2.1 e hmem2
      · rw [show (parse_bruno_files decode (g :: fs)).1
            = (match (parse_bru_file decode g).1 with
               | some e => e :: (parse_bruno_files decode fs).1
               | none => (parse_bruno_files decode fs).1) from rfl]
        cases (parse_bru_file decode g).1 with
        | none =>
          simp only [List.length_cons]
          exact Nat.le_succ_of_le ihh.2.2
        | some e' =>
          simp only [List.length_cons]
          exact Nat.succ_le_succ ihh.2.2

/-- The failing file and decoder of the C6 witness: a body block that the
decoder rejects. -/
def wFileC6 : BruFileInput := ⟨"bad.bru", "bad", none, some "nonsense"⟩

/-- A decoder rejecting every body, standing for json.loads on invalid
text. -/
def decodeNone : String → Option (List (String × JValue)) := fun _ => none

theorem claim_C6_witness :
    ((parse_bruno_files decodeNone [wFileC6]).2.filter
      (fun i => decide (i = Issue.invalidJson "bad.bru"))).length = 1
    ∧ (∀ e ∈ (parse_bruno_files decodeNone [wFileC6]).1, e.file_path ≠ "bad.bru")
    ∧ (parse_bruno_files decodeNone [wFileC6]).1.length + 1 ≤ 1 :=
  claim_C6 decodeNone wFileC6 "nonsense" rfl rfl [wFileC6]
    (List.mem_singleton.mpr rfl) (by decide)

/-- With pairwise distinct file names, a name picks out one file of the
run. -/
theorem name_determines_file :
    ∀ fs : List BruFileInput, (fs.map BruFileInput.name).Nodup →
      ∀ f g : BruFileInput, f ∈ fs → g ∈ fs → g.name = f.name → g = f
  | [], _, f, _, hf, _, _ => absurd hf (List.not_mem_nil f)
  | a :: fs, hnd, f, g, hf, hg, hname => by
    have hm := List.nodup_cons.mp (show (a.name :: fs.map BruFileInput.name).Nodup by
      simpa using hnd)
    rcases List.mem_cons.mp hf with hfa | hfm
    · rcases List.mem_cons.mp hg with hga | hgm
      · rw [hga, hfa]
      · subst hfa
        exact absurd (hname ▸ List.mem_map_of_mem BruFileInput.name hgm) hm.1
    · rcases List.mem_cons.mp hg with hga | hgm
      · subst hga
        exact absurd (hname.symm ▸ List.mem_map_of_mem BruFileInput.name hfm) hm.1
      · exact name_determines_file fs hm.2 f g hfm hgm hname

/-- C9: a sample file with no body:json block is silently skipped — the
parse yields no event and no issue, nothing in the loaded corpus carries
its name, and no loader issue names its file, exactly as if the file did
not exist. -/
theorem claim_C9 (decode : String → Option (List (String × JValue)))
    (files : List BruFileInput) (f : BruFileInput)
    (hf : f ∈ files) (hnd : (files.map BruFileInput.name).Nodup)
    (hb : f.bodyJson = none) :
    parse_bru_file decode f = (none, [])
    ∧ (∀ e ∈ (parse_bruno_files decode files).1, e.file_path ≠ f.name)
    ∧ (∀ i ∈ (parse_bruno_files decode files).2, Issue.file i ≠ some f.name) := by
  have hz : parse_bru_file decode f = (none, []) := by
    simp [parse_bru_file, hb]
  have hattr := parse_files_name_attribution decode f.name files
    (fun g hg hgnm => by
      rw [name_determines_file files hnd f g hf hg hgnm]
      exact hz)
  exact ⟨hz, hattr.1, hattr.2⟩

/-- The skipped file of the C9 witness: no body:json block at all. -/
def wFileC9 : BruFileInput := ⟨"skip.bru", "skip", some "Skip", none⟩

theorem claim_C9_witness :
    parse_bru_file decodeNone wFileC9 = (none, [])
    ∧ (∀ e ∈ (parse_bruno_files decodeNone [wFileC9]).1, e.file_path ≠ "skip.bru")
    ∧ (∀ i ∈ (parse_bruno_files decodeNone [wFileC9]).2,
        Issue.file i ≠ some "skip.bru") :=
  claim_C9 decodeNone [wFileC9] wFileC9 (List.mem_singleton.mpr rfl)
    (by decide) rfl

/-- The result accumulator (source lines 35-55).  The source appends
warnings into the same errors list with an emoji marker prefix; the
marker is modelled by the fixed string "warning: ". -/
structure ValidationResult where
  passed : Nat
  failed : Nat
  warnings : Nat
  errors : List String
deriving DecidableEq, Repr

/-- add_error (source lines 43-45). -/
def add_error (r : ValidationResult) (msg : String) : ValidationResult :=
  { r with errors := r.errors ++ [msg], failed := r.failed + 1 }

/-- add_pass (source lines 47-48). -/
def add_pass (r : ValidationResult) : ValidationResult :=
  { r with passed := r.passed + 1 }

/-- add_warning (source lines 50-52): appends to the same errors list and
increments only the warnings counter. -/
def add_warning (r : ValidationResult) (msg : String) : ValidationResult :=
  { r with errors := r.errors ++ ["warning: " ++ msg],
           warnings := r.warnings + 1 }

/-- is_success (source lines 54-55). -/
def is_success (r : ValidationResult) : Bool :=
  r.failed == 0

/-- The exit code of main (source line 425): 0 when is_success, else 1. -/
def exit_code (r : ValidationResult) : Nat :=
  if is_success r then 0 else 1

/-- C5: success is exactly failed = 0, the process exit code is 0 on
success and 1 otherwise, and recording a warning leaves the failed
counter, the success flag and the exit code unchanged while bumping only
the warnings counter. -/
theorem claim_C5 (r : ValidationResult) (msg : String) :
    (is_success r = true ↔ r.failed = 0)
    ∧ exit_code r = (if r.failed = 0 then 0 else 1)
    ∧ (add_warning r msg).failed = r.failed
    ∧ (add_warning r msg).warnings = r.warnings + 1
    ∧ is_success (add_warning r msg) = is_success r
    ∧ exit_code (add_warning r msg) = exit_code r := by
  refine ⟨?_, ?_, rfl, rfl, rfl, rfl⟩
  · simp [is_success]
  · simp [exit_code, is_success]

theorem missingType_not_in_fieldIssue
    (go_fields : List (String × GoStructField)) (file k fp : String) :
    Issue.missingTypeField fp ∉ fieldIssue go_fields file k := by
  unfold fieldIssue
  split
  · simp
  · split
    · simp
    · split
      · simp
      · simp

theorem missingType_not_in_issuesOfKeys
    (go_fields : List (String × GoStructField)) (file fp : String) :
    ∀ ks : List String, Issue.missingTypeField fp ∉ issuesOfKeys go_fields file ks
  | [] => List.not_mem_nil _
  | k :: ks => by
    simp only [issuesOfKeys, List.mem_append]
    rintro (h | h)
    · exact missingType_not_in_fieldIssue go_fields file k fp h
    · exact missingType_not_in_issuesOfKeys go_fields file fp ks h

/-- C7: in Pass A a sample genuinely lacking the "type" key gets exactly
the one missing-type Error and none of its keys are membership-checked;
a sample whose "type" key is present with the empty-string value gets no
missing-type Error and all of its keys (the "type" key included) go
through the membership check. -/
theorem claim_C7 (go_fields : List (String × GoStructField)) (e : BrunoEvent) :
    ("type" ∉ payloadKeys e.payload →
      sampleIssues go_fields e = [Issue.missingTypeField e.file_path])
    ∧ (("type", JValue.str "") ∈ e.payload →
      sampleIssues go_fields e
          = issuesOfKeys go_fields e.file_path (payloadKeys e.payload)
        ∧ ∀ fp : String, Issue.missingTypeField fp ∉ sampleIssues go_fields e) := by
  constructor
  · intro h
    simp [sampleIssues, h]
  · intro hmem
    have ht : "type" ∈ payloadKeys e.payload :=
      List.mem_map_of_mem Prod.fst hmem
    have heq : sampleIssues go_fields e
        = issuesOfKeys go_fields e.file_path (payloadKeys e.payload) := by
      simp [sampleIssues, ht]
    refine ⟨heq, fun fp => ?_⟩
    rw [heq]
    exact missingType_not_in_issuesOfKeys go_fields e.file_path fp _

/-- A sample with no "type" key at all. -/
def wSampleNoType : BrunoEvent :=
  ⟨"m.bru", "m", JValue.str "", [("player_guid", JValue.str "g")]⟩

/-- A sample whose "type" key holds the empty string. -/
def wSampleEmptyType : BrunoEvent :=
  ⟨"e.bru", "e", JValue.str "", [("type", JValue.str ""), ("bogus", JValue.null)]⟩

theorem claim_C7_witness :
    sampleIssues [] wSampleNoType = [Issue.missingTypeField "m.bru"]
    ∧ Issue.missingTypeField "e.bru" ∉ sampleIssues [] wSampleEmptyType :=
  ⟨(claim_C7 [] wSampleNoType).1 (by decide),
   ((claim_C7 [] wSampleEmptyType).2 (by decide)).2 "e.bru"⟩

/-- A corpus providing exact coverage of a one-type canonical set, used
as the C4 witness input. -/
def wSampleC4 : BrunoEvent :=
  ⟨"a.bru", "a", JValue.str "x", [("type", JValue.str "x")]⟩

theorem claim_C4_witness :
    (validate_event_counts (parse_event_types_enum ["x"])
      (event_types_of [wSampleC4]) [wSampleC4]).filter isCoverageIssue = [] :=
  (claim_C4 ["x"] [wSampleC4]).2.2 (by decide) (by decide)

/-- The issue sequence of one whole run, in the order the phases execute
(run_audit, source lines 84-118): the loader issues of phase 3, then
Pass A (phase 4), Pass C (phase 5), and Passes D and B (phase 6).  The
go_fields dict and the raw enum captures are the outputs of phases 1 and
2. -/
def run_audit_issues (go_fields : List (String × GoStructField))
    (goRaw : List String)
    (decode : String → Option (List (String × JValue)))
    (files : List BruFileInput) : List Issue :=
  (parse_bruno_files decode files).2
    ++ validate_bruno_payloads go_fields (parse_bruno_files decode files).1
    ++ validate_guid_fields (parse_bruno_files decode files).1
    ++ validate_event_counts (parse_event_types_enum goRaw)
        (event_types_of (parse_bruno_files decode files).1)
        (parse_bruno_files decode files).1

/-- A decoder returning the guid-carrying payload of the C2
counterexample for every body. -/
def decodeC2 : String → Option (List (String × JValue)) :=
  fun _ => some [("type", JValue.str "jump"), ("guid", JValue.str "g")]

/-- The single sample file of the C2 counterexample run. -/
def cexFileC2 : BruFileInput := ⟨"a.bru", "a", none, some "body"⟩

/-- C2: the claim asserts exactly one Error is recorded for a
guid-carrying sample over the entire run, regardless of the schema.  On
a run whose schema has the wire key "type" but not "guid", the one
loaded guid-carrying sample draws two Errors naming its file: the
ambiguous-guid unknown-field Error of Pass A (line 254) and the
ambiguous-guid Error of Pass C (line 297). -/
theorem claim_C2_cex :
    ((run_audit_issues cexSchemaC2 [] decodeC2 [cexFileC2]).filter
      (fun i => decide (Issue.file i = some "a.bru"
        ∧ Issue.severity i = Severity.error))).length = 2 := by
  decide

end OpmAudit
